import Mathlib

/-!
Shallow embedding of the YNAB4 → Firefly III importer (src/import.py) and
verification of its specification claims.  Python `Decimal` amounts are
modelled as exact rationals, `arrow.Arrow` dates as calendar triples, and
the remote HTTP API as explicit action lists and outcome oracles.  Each
definition's doc comment names the source function it embeds.
-/

namespace YnabFirefly

/-- Calendar date (an `arrow.Arrow` value with no time component). -/
structure Date where
  year : Nat
  month : Nat
  day : Nat
deriving DecidableEq

/-- `date.replace(day=1)` — the month of a date. -/
def monthOf (d : Date) : Date := { d with day := 1 }

/-- Chronological comparison of dates (arrow compares timestamps). -/
def dateLeB (a b : Date) : Bool :=
  Nat.blt a.year b.year ||
    (a.year == b.year && (Nat.blt a.month b.month ||
      (a.month == b.month && Nat.ble a.day b.day)))

/-- Strict chronological comparison of dates. -/
def dateLtB (a b : Date) : Bool := !(dateLeB b a)

/-- The regex class `[A-Z]`. -/
def isUpperAZ (c : Char) : Bool := decide ('A' ≤ c) && decide (c ≤ 'Z')

/-- The regex class `\s` (ASCII whitespace, as in Python `re`). -/
def isWsChar (c : Char) : Bool :=
  c == ' ' || c == '\t' || c == '\n' || c == '\r' || c == '\x0b' || c == '\x0c'

/-- The regex class `[0-9]`. -/
def isDigitChar (c : Char) : Bool := decide ('0' ≤ c) && decide (c ≤ '9')

/-- The regex class `[0-9,\\.]` of `Importer.MEMO_RE` (the raw pattern spells
a doubled backslash, so the class also contains the backslash character). -/
def isMemoAmountChar (c : Char) : Bool :=
  isDigitChar c || c == ',' || c == '.' || c == '\\'

/-- `p` is a prefix of `l` (character lists). -/
def isPrefixL : List Char → List Char → Bool
  | [], _ => true
  | _ :: _, [] => false
  | p :: ps, c :: cs => p == c && isPrefixL ps cs

/-- Helper for `containsSub`. -/
def containsSubAux (pat : List Char) : List Char → Bool
  | [] => isPrefixL pat []
  | c :: cs => isPrefixL pat (c :: cs) || containsSubAux pat cs

/-- Python's substring test `pat in s`. -/
def containsSub (s pat : String) : Bool := containsSubAux pat.data s.data

/-- Drop the prefix `p` from `l`, or fail. -/
def dropPrefixL : List Char → List Char → Option (List Char)
  | [], l => some l
  | _ :: _, [] => none
  | p :: ps, c :: cs => if p == c then dropPrefixL ps cs else none

/-- Fuel-driven worker for `splitOnS` (fuel bounds the number of steps; it is
always instantiated with the length of the list being split). -/
def splitOnLF (sep : List Char) : Nat → List Char → List Char → List (List Char)
  | 0, rest, acc => [acc ++ rest]
  | _ + 1, [], acc => [acc]
  | fuel + 1, c :: cs, acc =>
    if isPrefixL sep (c :: cs) then
      acc :: splitOnLF sep fuel ((c :: cs).drop sep.length) []
    else
      splitOnLF sep fuel cs (acc.concat c)

/-- Python's `s.split(sep)` for a nonempty separator: splits at every
leftmost non-overlapping occurrence, keeping empty segments. -/
def splitOnS (s sep : String) : List String :=
  (splitOnLF sep.data s.data.length s.data []).map fun l => ⟨l⟩

/-- Python's `s.strip()` (whitespace trimming on both ends). -/
def trimS (s : String) : String :=
  ⟨((s.data.dropWhile isWsChar).reverse.dropWhile isWsChar).reverse⟩

/-- `s.replace(",", "")` — removing every comma removes every occurrence of
the one-character pattern. -/
def stripCommas (s : String) : String := ⟨s.data.filter (fun c => c != ',')⟩

/-- Numeric value of a list of decimal digit characters. -/
def digitsVal (l : List Char) : Nat := l.foldl (fun a c => a * 10 + (c.toNat - 48)) 0

/-- All characters are decimal digits. -/
def allDigits (l : List Char) : Bool := l.all isDigitChar

/-- Python's `int(s)` for the plain digit strings fed to it here. -/
def parseNat (s : String) : Option Nat :=
  if !s.data.isEmpty && allDigits s.data then some (digitsVal s.data) else none

/-- Python's `Decimal(s)` on the digit/point strings the importer feeds it
(commas already stripped): an optional integer part and an optional
fractional part around at most one point, at least one digit in total.
Anything else (for instance a stray backslash kept by the memo regex
class) raises `InvalidOperation` in Python, modelled as `none`. -/
def parseDecimal (s : String) : Option ℚ :=
  match splitOnS s "." with
  | [a] =>
    if !a.data.isEmpty && allDigits a.data then some (digitsVal a.data : ℚ) else none
  | [a, b] =>
    if (!a.data.isEmpty || !b.data.isEmpty) && allDigits a.data && allDigits b.data then
      some ((digitsVal a.data : ℚ) + (digitsVal b.data : ℚ) / (10 : ℚ) ^ b.data.length)
    else none
  | _ => none

/-- The tail `([A-Z]{3})\s+([0-9,\.]+)(K)?(;.*)?$` of `Importer.MEMO_RE`,
matched exactly at the start of `cs` and reaching the end of the string.
Greedy `\s+` and `[0-9,\.]+` coincide with maximal munch because the
character classes involved are pairwise disjoint from what may follow.
Returns the captured groups (code, digits, K-flag, `;`-segment). -/
def memoTail (cs : List Char) : Option (String × String × Bool × Option String) :=
  match cs with
  | c1 :: c2 :: c3 :: rest =>
    if isUpperAZ c1 && isUpperAZ c2 && isUpperAZ c3 then
      match rest.span isWsChar with
      | (ws, rest1) =>
        if ws.isEmpty then none
        else
          match rest1.span isMemoAmountChar with
          | (dg, rest2) =>
            if dg.isEmpty then none
            else
              match rest2 with
              | [] => some (⟨[c1, c2, c3]⟩, ⟨dg⟩, false, none)
              | ['K'] => some (⟨[c1, c2, c3]⟩, ⟨dg⟩, true, none)
              | 'K' :: ';' :: r =>
                if r.all (fun c => c != '\n') then
                  some (⟨[c1, c2, c3]⟩, ⟨dg⟩, true, some ⟨';' :: r⟩)
                else none
              | ';' :: r =>
                if r.all (fun c => c != '\n') then
                  some (⟨[c1, c2, c3]⟩, ⟨dg⟩, false, some ⟨';' :: r⟩)
                else none
              | _ => none
    else none
  | _ => none

/-- Worker for `memoMatch`: the greedy leading `.*` of `MEMO_RE` prefers the
latest start position at which the tail matches, and cannot cross a
newline. -/
def memoMatchAux : List Char → Option (String × String × Bool × Option String)
  | [] => none
  | c :: cs =>
    match (if c != '\n' then memoMatchAux cs else none) with
    | some r => some r
    | none => memoTail (c :: cs)

/-- `Importer.MEMO_RE.match(s)` — the regex
`^.*([A-Z]{3})\s+([0-9,\\.]+)(K)?(;.*)?$` with Python backtracking
semantics, returning the four captured groups on success. -/
def memoMatch (s : String) : Option (String × String × Bool × Option String) :=
  memoMatchAux s.data

/-- `DUPLICATE_TX_RE.match(s)` — the regex
`^Duplicate of transaction #([0-9]+)\.$`, returning the captured id. -/
def dupMatch (s : String) : Option Nat :=
  match dropPrefixL "Duplicate of transaction #".data s.data with
  | none => none
  | some rest =>
    match rest.span isDigitChar with
    | (dg, rest2) =>
      if dg.isEmpty then none
      else match rest2 with
        | ['.'] => some (digitsVal dg)
        | _ => none

/-- Source row of the YNAB register (`YNABTransaction` dataclass). -/
structure YNABTransaction where
  account : String
  flag : String
  date : Date
  payee : String
  category : String
  master_category : String
  sub_category : String
  memo : String
  outflow : ℚ
  inflow : ℚ
  cleared : String
  running_balance : ℚ
deriving DecidableEq

/-- Per-account configuration (`Config.Account`).  Only the `currency` field
participates in the claims under verification; `role`,
`monthly_payment_date` and `inactive` are omitted. -/
structure AccountConfig where
  currency : String := ""
deriving DecidableEq

/-- Application configuration (`Config`), restricted to the fields the
verified components read.  Python dicts become association lists. -/
structure Config where
  accounts : List (String × AccountConfig) := []
  currency_conv_fallback : List (String × ℚ) := []
  currency : String := "USD"
  payee_mapping : List (String × String) := []
deriving DecidableEq

/-- `Importer._acc_config`: account config with a default fallback. -/
def acc_config (cfg : Config) (acc : String) : AccountConfig :=
  (cfg.accounts.lookup acc).getD {}

/-- `Importer._is_foreign`: the account has a configured currency different
from the default one (Python truthiness of the empty string). -/
def is_foreign (cfg : Config) (acc : String) : Bool :=
  (acc_config cfg acc).currency != "" && (acc_config cfg acc).currency != cfg.currency

/-- `Importer._payee`: payee renaming applied to the stripped payee text. -/
def payee_of (cfg : Config) (tx : YNABTransaction) : String :=
  (cfg.payee_mapping.lookup (trimS tx.payee)).getD (trimS tx.payee)

/-- `_is_transfer`: a transfer row is detected by the marker substring in the
payee field. -/
def is_transfer (tx : YNABTransaction) : Bool := containsSub tx.payee "Transfer : "

/-- `_transfer_account`: extract the counter-account name from one of the two
payee shapes (`"Y / Transfer : X"` or `"Transfer : X"`).  Python indexing
`[1]` on a too-short split raises; the importer only reaches this with a
payee containing the marker, where both splits have a second element. -/
def transfer_account (tx : YNABTransaction) : String :=
  if containsSub tx.payee " / Transfer : " then
    (splitOnS ((splitOnS tx.payee " / ").getD 1 "") " : ").getD 1 ""
  else
    (splitOnS tx.payee " : ").getD 1 ""

/-- `_correct_transfer_to_from`: make `account` the side money flows out of.
The leading `assert _is_transfer(tx)` is the error case.  With positive
outflow only the payee is canonicalized; otherwise account/payee and
outflow/inflow are swapped and the running balance is set to the sentinel
`Decimal(-1)`. -/
def correct_transfer_to_from (tx : YNABTransaction) : Except String YNABTransaction :=
  if !is_transfer tx then .error "AssertionError: not a transfer"
  else
    let account_from_payee := transfer_account tx
    if tx.outflow > 0 then
      .ok { tx with payee := account_from_payee }
    else
      .ok { tx with
              account := account_from_payee
              payee := tx.account
              running_balance := -1
              outflow := tx.inflow
              inflow := tx.outflow }

/-- Python's `tx.outflow or tx.inflow` (`Decimal(0)` is falsy). -/
def outflowOrInflow (tx : YNABTransaction) : ℚ :=
  if tx.outflow ≠ 0 then tx.outflow else tx.inflow

/-- The common tail of `Importer._amount`: `config.currency_conv_fallback`
lookup with Python truthiness (`if not conv_fallback: raise ValueError`). -/
def amount_fallback (cfg : Config) (fcc : String) (amount : ℚ) : Except String ℚ :=
  match cfg.currency_conv_fallback.lookup fcc with
  | some r => if r ≠ 0 then .ok (amount * r) else .error "ValueError: set currency_conv_fallback"
  | none => .error "ValueError: set currency_conv_fallback"

/-- `Importer._amount`: the row amount, resolved through the memo (with sign
flipped for inflows) for foreign-currency accounts, else through the
configured fallback conversion rate. -/
def amount_of (cfg : Config) (tx : YNABTransaction) : Except String ℚ :=
  let amount := outflowOrInflow tx
  if !is_foreign cfg tx.account then .ok amount
  else
    let fcc := (acc_config cfg tx.account).currency
    match memoMatch tx.memo with
    | some (g1, g2, _, _) =>
      if g1 = fcc then
        match parseDecimal (stripCommas g2) with
        | some v => .ok (v * (if tx.inflow > 0 then -1 else 1))
        | none => .error "InvalidOperation"
      else amount_fallback cfg fcc amount
    | none => amount_fallback cfg fcc amount

/-- The local variable `fallback_amount` of `Importer._transfer_foreign_amount`:
`None` unless a (truthy) conversion rate is configured for the currency. -/
def fallback_amount_opt (cfg : Config) (fcc : String) (tx : YNABTransaction) : Option ℚ :=
  match cfg.currency_conv_fallback.lookup fcc with
  | some r => if r ≠ 0 then some (outflowOrInflow tx * r) else none
  | none => none

/-- Python truthiness of the optional `fallback_amount` (both `None` and a
zero amount are falsy). -/
def truthyQ : Option ℚ → Bool
  | some v => v != 0
  | none => false

/-- `Importer._transfer_foreign_amount` on an already-corrected transfer row.
Returns the optional `foreign_amount` of the Transfer leg, or the raised
error.  Faithful details: the 20% tolerance assertion only runs when
`fallback_amount` is truthy; the thousands multiplier tests
`m.group(2) == "K"` (the digits group, a source quirk — the digits group
never equals `"K"`); both foreign sides must share a currency; any other
combination falls through returning `None`. -/
def transfer_foreign_amount (cfg : Config) (tx : YNABTransaction) :
    Except String (Option ℚ) :=
  if containsSub tx.payee "Transfer : " then .error "AssertionError: not corrected"
  else
    let to_account := tx.payee
    if is_foreign cfg tx.account && !is_foreign cfg to_account then
      .ok (some (outflowOrInflow tx))
    else if !is_foreign cfg tx.account && is_foreign cfg to_account then
      let fcc := (acc_config cfg to_account).currency
      let fallback_amount := fallback_amount_opt cfg fcc tx
      match memoMatch tx.memo with
      | some (g1, g2, _, _) =>
        if g1 = fcc then
          match parseDecimal (stripCommas g2) with
          | none => .error "InvalidOperation"
          | some a0 =>
            let amount := if g2 = "K" then a0 * 1000 else a0
            if truthyQ fallback_amount then
              if |amount - fallback_amount.getD 0| / fallback_amount.getD 0 ≤ 1 / 5 then
                .ok (some amount)
              else .error "AssertionError: foreign amount tolerance"
            else .ok (some amount)
        else
          if !truthyQ fallback_amount then .error "ValueError: set currency_conv_fallback"
          else .ok (some (fallback_amount.getD 0))
      | none =>
        if !truthyQ fallback_amount then .error "ValueError: set currency_conv_fallback"
        else .ok (some (fallback_amount.getD 0))
    else if is_foreign cfg tx.account && is_foreign cfg to_account then
      if (acc_config cfg tx.account).currency = (acc_config cfg to_account).currency then
        .ok none
      else .error "AssertionError: cross-foreign transfer"
    else .ok none

/-- Key of `transfers_seen_map` in `Importer._process_transactions`:
`(tuple(sorted([tx.account, tx.payee])), date, abs(tx.outflow - tx.inflow))`. -/
abbrev TKey := (String × String) × Date × ℚ

/-- Python's `sorted([a, b])` on two strings (code-point lexicographic,
stable, so equal strings keep their order). -/
def sortPair (a b : String) : String × String := if b < a then (b, a) else (a, b)

/-- The `transfer_seen_map_key` computed for a corrected transfer row. -/
def transferKey (tx : YNABTransaction) : TKey :=
  (sortPair tx.account tx.payee, tx.date, |tx.outflow - tx.inflow|)

/-- The keep/discard test of the dedup pass:
`transfers_seen_map.get(key, 0) % 2 == 1` discards the row. -/
def dedupKeep (seen : TKey → Nat) (k : TKey) : Bool := !(seen k % 2 == 1)

/-- The map update of the dedup pass: a discarded sighting increments the
per-key counter, a kept sighting resets it to `1`. -/
def dedupNext (seen : TKey → Nat) (k : TKey) : TKey → Nat :=
  if seen k % 2 == 1 then fun k2 => if k2 = k then seen k + 1 else seen k2
  else fun k2 => if k2 = k then 1 else seen k2

/-- The keep/discard flags the dedup pass assigns to a sequence of keys. -/
def keptFlags (seen : TKey → Nat) : List TKey → List Bool
  | [] => []
  | k :: ks => dedupKeep seen k :: keptFlags (dedupNext seen k) ks

/-- A transaction leg (`ImportData.TransactionGroup.{Withdrawal, Deposit,
Transfer}`), restricted to the fields the claims under verification speak
about: kind, accounts, date, amount and the transfer `foreign_amount`.  The
presentation fields (description, notes, tags, reconciled, external_id) are
carried by the source constructors but play no role in any claim. -/
inductive Leg
  | withdrawal (account : String) (payee : String) (date : Date) (amount : ℚ)
  | deposit (account : String) (payee : String) (date : Date) (amount : ℚ)
  | transfer (from_account : String) (to_account : String) (date : Date)
      (amount : ℚ) (foreign_amount : Option ℚ)
deriving DecidableEq

/-- One iteration of the row loop of `Importer._process_transactions`
(source lines 858–923): transfer rows are corrected, deduplicated through
`transfers_seen_map` and emitted as Transfer legs; otherwise a positive
outflow emits a Withdrawal, a positive inflow a Deposit, and anything else
raises.  The budget/category validation of lines 845–856 (which only
asserts membership in pre-computed sets) is orthogonal to the emitted legs
and not modelled.  Returns the updated seen-map and the emitted leg, if
any. -/
def processRow (cfg : Config) (seen : TKey → Nat) (tx : YNABTransaction) :
    Except String ((TKey → Nat) × Option Leg) :=
  if is_transfer tx then
    match correct_transfer_to_from tx with
    | .error e => .error e
    | .ok tx1 =>
      let key := transferKey tx1
      if !dedupKeep seen key then .ok (dedupNext seen key, none)
      else
        match amount_of cfg tx1 with
        | .error e => .error e
        | .ok a =>
          match transfer_foreign_amount cfg tx1 with
          | .error e => .error e
          | .ok famt =>
            .ok (dedupNext seen key, some (.transfer tx1.account tx1.payee tx1.date a famt))
  else if tx.outflow > 0 then
    match amount_of cfg tx with
    | .error e => .error e
    | .ok a => .ok (seen, some (.withdrawal tx.account (payee_of cfg tx) tx.date a))
  else if tx.inflow > 0 then
    match amount_of cfg tx with
    | .error e => .error e
    | .ok a => .ok (seen, some (.deposit tx.account (payee_of cfg tx) tx.date a))
  else .error "ValueError: transaction of unknown kind"

/-- The row loop of `Importer._process_transactions` over a sequence of
(already filtered and grouped) rows, collecting the emitted legs in order. -/
def processRows (cfg : Config) : (TKey → Nat) → List YNABTransaction → Except String (List Leg)
  | _, [] => .ok []
  | seen, tx :: rest =>
    match processRow cfg seen tx with
    | .error e => .error e
    | .ok (seen1, leg) =>
      match processRows cfg seen1 rest with
      | .error e => .error e
      | .ok legs =>
        .ok (match leg with
             | some l => l :: legs
             | none => legs)

/-- Projection used to state facts about a single row's emission without
comparing seen-map functions for equality. -/
def processRowLeg (cfg : Config) (seen : TKey → Nat) (tx : YNABTransaction) :
    Option (Option Leg) :=
  match processRow cfg seen tx with
  | .ok (_, leg) => some leg
  | .error _ => none

/-- A currency listed by the remote system: its code and the `default` and
`enabled` attributes read by `Importer._create_currencies`. -/
structure CurrencyInfo where
  code : String
  is_default : Bool
  enabled : Bool
deriving DecidableEq

/-- A mutating currency call issued by `Importer._create_currencies`. -/
inductive CurrencyAction
  | makeDefault (code : String)
  | enable (code : String)
  | disable (code : String)
deriving DecidableEq

/-- The local variable `currencies_to_keep` of `Importer._create_currencies`:
`["EUR", config.currency]` plus every nonempty account currency.  The
source computes this list and then never reads it. -/
def currencies_to_keep (cfg : Config) : List String :=
  ["EUR", cfg.currency] ++
    cfg.accounts.filterMap fun p => if p.2.currency ≠ "" then some p.2.currency else none

/-- The enable/disable/default loop of `Importer._create_currencies`, as the
list of mutating calls issued for the listed currencies (in listing order).
The membership test in the source is the hardcoded
`[self.config.currency, "INR", "EUR"]`, not `currencies_to_keep`. -/
def create_currencies (cfg : Config) (currencies : List CurrencyInfo) : List CurrencyAction :=
  currencies.flatMap fun c =>
    (if c.code = cfg.currency && !c.is_default then [CurrencyAction.makeDefault c.code] else []) ++
    (if c.code = cfg.currency || c.code = "INR" || c.code = "EUR" then
      if !c.enabled then [CurrencyAction.enable c.code] else []
    else if c.enabled then [CurrencyAction.disable c.code] else [])

/-- Decimal digits of a natural number (fuel-driven; fuel `n + 1` suffices). -/
def natToStrAux : Nat → Nat → List Char
  | 0, _ => []
  | fuel + 1, n => if n = 0 then [] else natToStrAux fuel (n / 10) ++ [Char.ofNat (48 + n % 10)]

/-- Decimal rendering of a natural number. -/
def natToStr (n : Nat) : String := if n = 0 then "0" else ⟨natToStrAux (n + 1) n⟩

/-- Left-pad with zeros to width `w`. -/
def padZeros (w : Nat) (s : String) : String :=
  ⟨List.replicate (w - s.data.length) '0' ++ s.data⟩

/-- `obj.format("YYYY-MM-DD")` on a date. -/
def fmtDate (d : Date) : String :=
  padZeros 4 (natToStr d.year) ++ "-" ++ padZeros 2 (natToStr d.month) ++ "-" ++
    padZeros 2 (natToStr d.day)

/-- A desired-or-remote attribute value as `_firefly_compare` sees it: a
date (`arrow.Arrow`), a numeric value (Python `Decimal`, or the remote's
JSON number / numeric string, both of which `Decimal(str(_))` turns into
the same decimal value), a string, a boolean, or remote `None`/absent. -/
inductive FValue
  | str (s : String)
  | num (q : ℚ)
  | date (d : Date)
  | bool (b : Bool)
  | null
deriving DecidableEq

/-- `_firefly_compare(obj, firefly_obj)`: type-aware equality.  Dates
compare through their `YYYY-MM-DD` rendering; numerics compare as decimal
values (`obj == Decimal(str(firefly_obj))` — a remote JSON number or
numeric string is therefore modelled as `FValue.num` of its value), with a
remote `None` treated as zero (`obj == 0`); a remote `None` against a
boolean is Python's `obj == 0`, true exactly for `False`; a boolean
against a remote number follows Python's `True == 1`.  The remaining
cross-type cells follow Python `==` (false); the two cells where
`Decimal(str(_))` would instead raise (a desired numeric against a remote
boolean or non-numeric string) never occur in the importer's data and are
modelled as unequal. -/
def firefly_compare (obj firefly_obj : FValue) : Bool :=
  match obj, firefly_obj with
  | .date d, .str s => fmtDate d == s
  | .date _, _ => false
  | .num q, .num r => q == r
  | .num q, .null => q == 0
  | .num _, _ => false
  | .str s, .str t => s == t
  | .str _, _ => false
  | .bool b, .bool c => b == c
  | .bool b, .null => b == false
  | .bool b, .num q => (if b then (1 : ℚ) else 0) == q
  | .bool _, _ => false
  | .null, _ => false

/-- `_firefly_needs_update(obj, firefly_obj)`: some desired field disagrees
with `firefly_obj["attributes"].get(k)` under `_firefly_compare` (an absent
attribute is Python `None`). -/
def firefly_needs_update (obj : List (String × FValue))
    (attributes : List (String × FValue)) : Bool :=
  obj.any fun kv => !(firefly_compare kv.2 ((attributes.lookup kv.1).getD .null))

/-- A remote object held in the cache: its id and its attribute mapping. -/
structure FFObj where
  id : Nat
  attributes : List (String × FValue)
deriving DecidableEq

/-- `ImportData.Budget`. -/
structure ImportBudget where
  name : String
  active : Bool := true
deriving DecidableEq

/-- The request body `data` built for a budget in `Importer._create_budgets`. -/
def budgetData (b : ImportBudget) : List (String × FValue) :=
  [("name", .str b.name), ("active", .bool b.active)]

/-- A mutating call issued by `Importer._create_budgets`. -/
inductive BudgetAction
  | put (id : Nat) (data : List (String × FValue))
  | post (data : List (String × FValue))
deriving DecidableEq

/-- The reconciliation loop of `Importer._create_budgets` over the desired
budgets, with `cache` the name-indexed remote listing: a cached name is
updated only when `_firefly_needs_update` says so, an uncached name is
created.  (Desired budgets come from a dict, so names are distinct; the
response-insertion into the cache after a create therefore never affects a
later iteration and is not modelled.) -/
def create_budgets (budgets : List ImportBudget) (cache : List (String × FFObj)) :
    List BudgetAction :=
  budgets.flatMap fun b =>
    match cache.lookup b.name with
    | some ff =>
      if firefly_needs_update (budgetData b) ff.attributes then [.put ff.id (budgetData b)]
      else []
    | none => [.post (budgetData b)]

/-- Is this action an update (PUT) call? -/
def isPut : BudgetAction → Bool
  | .put _ _ => true
  | .post _ => false

/-- Does the reconciliation loop consider this desired budget in need of an
update against the cache? -/
def budgetNeedsUpdate (cache : List (String × FFObj)) (b : ImportBudget) : Bool :=
  match cache.lookup b.name with
  | some ff => firefly_needs_update (budgetData b) ff.attributes
  | none => false

/-- State built by `_firefly_create_transaction_errors`: the three result
dicts (as insertion-ordered association lists). -/
structure TxErrors where
  dup_errors : List (Nat × Nat) := []
  other_tx_errors : List (Nat × List (String × List String)) := []
  other_errors : List (String × List String) := []
deriving DecidableEq

/-- Association-list update: replace the value at an existing key, else
append (dict insertion semantics). -/
def setA {α β : Type} [BEq α] (l : List (α × β)) (k : α) (v : β) : List (α × β) :=
  match l with
  | [] => [(k, v)]
  | (k1, v1) :: rest => if k1 == k then (k, v) :: rest else (k1, v1) :: setA rest k v

/-- One iteration of `_firefly_create_transaction_errors` over a response
field and its error list.  Python raises `IndexError`/`ValueError` on a
malformed `transactions.<idx>.<field>` key and `AssertionError` when a
transaction index appears in both classifications. -/
def classifyError (st : TxErrors) (field : String) (field_errors : List String) :
    Except String TxErrors :=
  let split := splitOnS field "."
  if (split.getD 0 "") ≠ "transactions" then
    .ok { st with other_errors := setA st.other_errors (split.getD 0 "") field_errors }
  else
    match split.get? 1 with
    | none => .error "IndexError"
    | some s1 =>
      match parseNat s1 with
      | none => .error "ValueError: invalid literal for int"
      | some tx_idx =>
        match split.get? 2 with
        | none => .error "IndexError"
        | some child_field =>
          if field_errors.length == 1 && (dupMatch (field_errors.getD 0 "")).isSome then
            if (st.other_tx_errors.lookup tx_idx).isSome then .error "AssertionError"
            else
              .ok { st with
                      dup_errors :=
                        setA st.dup_errors tx_idx ((dupMatch (field_errors.getD 0 "")).getD 0) }
          else
            if (st.dup_errors.lookup tx_idx).isSome then .error "AssertionError"
            else
              .ok { st with
                      other_tx_errors :=
                        setA st.other_tx_errors tx_idx
                          (setA ((st.other_tx_errors.lookup tx_idx).getD []) child_field
                            field_errors) }

/-- Worker folding `classifyError` over the response's error mapping. -/
def classifyErrors (st : TxErrors) : List (String × List String) → Except String TxErrors
  | [] => .ok st
  | (field, errs) :: rest =>
    match classifyError st field errs with
    | .error e => .error e
    | .ok st1 => classifyErrors st1 rest

/-- `_firefly_create_transaction_errors(response)`: interpret the `errors`
mapping of a failed batch-create response into duplicate errors, other
per-transaction errors, and other (top-level) errors. -/
def firefly_create_transaction_errors (errors : List (String × List String)) :
    Except String TxErrors :=
  classifyErrors {} errors

/-- An error entry that the classifier files as a duplicate: a well-formed
`transactions.<idx>.<field>` key whose single message matches
`DUPLICATE_TX_RE`. -/
def isDupEntry (e : String × List String) : Bool :=
  let split := splitOnS e.1 "."
  (split.getD 0 "") == "transactions" &&
    (match split.get? 1 with
     | some s1 => (parseNat s1).isSome
     | none => false) &&
    (split.get? 2).isSome &&
    e.2.length == 1 && (dupMatch (e.2.getD 0 "")).isSome

/-- The HTTP-422 handler of `Importer._create_transactions` (source lines
1237–1247): classify the error payload; any non-duplicate transaction
error or top-level error re-raises (surfacing the raw payload), otherwise
the duplicates are logged as already imported and the `imported` counter
still advances. -/
def handle422 (errors : List (String × List String)) (imported : Nat) : Except String Nat :=
  match firefly_create_transaction_errors errors with
  | .error e => .error e
  | .ok st =>
    if !st.other_tx_errors.isEmpty || !st.other_errors.isEmpty then
      .error "raise: raw error payload"
    else .ok (imported + 1)

/-- The slice of a transaction-group leg the submission loop reads: its
date. -/
structure TxMeta where
  date : Date
deriving DecidableEq

/-- `ImportData.TransactionGroup`, restricted to what the submission loop
reads. -/
structure TxGroup where
  transactions : List TxMeta
deriving DecidableEq

/-- Outcome of posting one batch to `/api/v1/transactions`: success, an
HTTP 422 validation failure carrying the response's `errors` mapping, or
any other HTTP failure. -/
inductive SubmitOutcome
  | success
  | validationError (errors : List (String × List String))
  | httpError
deriving DecidableEq

/-- Why `Importer._create_transactions` stopped, when it did not run to
completion. -/
inductive RunErr
  /-- `transaction_groups[0]` or `transactions[0]` missing (`IndexError`). -/
  | indexError
  /-- `_verify_running_balance` raised on a balance mismatch. -/
  | balanceMismatch
  /-- the unconditional `raise ValueError` (comment: abort after first
  month) executed right after a successful balance verification. -/
  | monthAbort
  /-- a fatal remote error: non-422 HTTP failure, a malformed error payload,
  or a 422 with non-duplicate errors re-raised. -/
  | remoteFatal
  /-- the `if imported > 200: raise ValueError` guard fired. -/
  | importLimit
deriving DecidableEq

/-- Result of the submission loop: how it ended (`none` = ran to
completion), the final `imported` and `ignored` counters, and the months
for which `_verify_running_balance` was invoked, in order. -/
structure RunResult where
  err : Option RunErr
  imported : Nat
  ignored : Nat
  verified_months : List Date
deriving DecidableEq

/-- Should this group be skipped by the min/max date filter
(`tx_group.transactions[0].date` against the optional bounds)? -/
def filteredOut (fmin fmax : Option Date) (d : Date) : Bool :=
  (match fmax with
   | some mx => dateLtB mx d
   | none => false) ||
  (match fmin with
   | some mn => dateLtB d mn
   | none => false)

/-- The body of the `for tx_group in self.data.transaction_groups` loop of
`Importer._create_transactions` (source lines 1169–1250), iterated over
the remaining groups.  `m0` is the month of
`transaction_groups[0].transactions[0]` — faithful to the source, which
recomputes `tx_month` from `transaction_groups[0]` (not the loop variable)
on every iteration.  `i` is the position of the group, used to index the
submission oracle; `balance_ok` abstracts the remote balance comparison
performed by `_verify_running_balance` (never reached, see the month
computation). -/
def createTxLoop (m0 : Date) (fmin fmax : Option Date) (submit : Nat → SubmitOutcome)
    (balance_ok : Date → Bool) :
    List TxGroup → Nat → Date → Nat → Nat → List Date → RunResult
  | [], _, _, imported, ignored, verified => ⟨none, imported, ignored, verified⟩
  | g :: rest, i, current, imported, ignored, verified =>
    let tx_month := m0
    if tx_month ≠ current then
      if !balance_ok current then
        ⟨some .balanceMismatch, imported, ignored, verified ++ [current]⟩
      else ⟨some .monthAbort, imported, ignored, verified ++ [current]⟩
    else
      match g.transactions.head? with
      | none => ⟨some .indexError, imported, ignored, verified⟩
      | some t0 =>
        if filteredOut fmin fmax t0.date then
          createTxLoop m0 fmin fmax submit balance_ok rest (i + 1) current imported
            (ignored + 1) verified
        else
          match submit i with
          | .httpError => ⟨some .remoteFatal, imported, ignored, verified⟩
          | .validationError errors =>
            (match firefly_create_transaction_errors errors with
             | .error _ => ⟨some .remoteFatal, imported, ignored, verified⟩
             | .ok st =>
               if !st.other_tx_errors.isEmpty || !st.other_errors.isEmpty then
                 ⟨some .remoteFatal, imported, ignored, verified⟩
               else
                 if imported + 1 > 200 then
                   ⟨some .importLimit, imported + 1, ignored, verified⟩
                 else
                   createTxLoop m0 fmin fmax submit balance_ok rest (i + 1) current
                     (imported + 1) ignored verified)
          | .success =>
            if imported + 1 > 200 then
              ⟨some .importLimit, imported + 1, ignored, verified⟩
            else
              createTxLoop m0 fmin fmax submit balance_ok rest (i + 1) current
                (imported + 1) ignored verified

/-- `Importer._create_transactions`: initialize `current_month` from the
first group's first transaction and run the submission loop. -/
def create_transactions (groups : List TxGroup) (fmin fmax : Option Date)
    (submit : Nat → SubmitOutcome) (balance_ok : Date → Bool) : RunResult :=
  match groups.head? with
  | none => ⟨some .indexError, 0, 0, []⟩
  | some g0 =>
    match g0.transactions.head? with
    | none => ⟨some .indexError, 0, 0, []⟩
    | some t0 =>
      createTxLoop (monthOf t0.date) fmin fmax submit balance_ok groups 0
        (monthOf t0.date) 0 0 []

/-- Decidable equality of `Except` results, for evaluating the embedded
functions on concrete inputs. -/
instance {ε α : Type} [DecidableEq ε] [DecidableEq α] : DecidableEq (Except ε α) := fun a b =>
  match a, b with
  | .error e1, .error e2 =>
    if h : e1 = e2 then .isTrue (by rw [h]) else .isFalse (by simp [h])
  | .error _, .ok _ => .isFalse (by simp)
  | .ok _, .error _ => .isFalse (by simp)
  | .ok a1, .ok a2 =>
    if h : a1 = a2 then .isTrue (by rw [h]) else .isFalse (by simp [h])

/-- Occurrences of a key in a list of dedup keys. -/
def countKey (k : TKey) : List TKey → Nat
  | [] => 0
  | k1 :: ks => (if k1 = k then 1 else 0) + countKey k ks

/-- Default key used by positional statements about `keptFlags`. -/
def dfltTKey : TKey := (("", ""), ⟨0, 0, 0⟩, 0)

/-- Hypothesis package: every configured fallback conversion rate is
positive. -/
def ratesPos (cfg : Config) : Prop :=
  ∀ code r, cfg.currency_conv_fallback.lookup code = some r → 0 < r

/-- Hypothesis package: whenever the memo parses, the parsed decimal value
is positive. -/
def memoValPos (m : String) : Prop :=
  ∀ g1 g2 k g4 v, memoMatch m = some (g1, g2, k, g4) →
    parseDecimal (stripCommas g2) = some v → 0 < v

/-- The row is on a foreign-currency account and its memo yields that
account's currency code. -/
def foreignMemoMatch (cfg : Config) (tx : YNABTransaction) : Prop :=
  is_foreign cfg tx.account = true ∧
    ∃ g2 k g4, memoMatch tx.memo = some ((acc_config cfg tx.account).currency, g2, k, g4)

/-- The corrected form of a transfer row (the value
`_correct_transfer_to_from` returns; on a non-transfer row, where the
source asserts, the row itself). -/
def correctVal (tx : YNABTransaction) : YNABTransaction :=
  match correct_transfer_to_from tx with
  | .ok u => u
  | .error _ => tx

/-- Claim C2: for every transfer row, `_correct_transfer_to_from` returns,
when the row's outflow is positive, the same row with only the payee
replaced by the counter-account name extracted from the payee text; and
when instead the inflow is positive, a rewritten row whose account is the
extracted counter-account, whose payee is the old account, with outflow
and inflow swapped and the running balance set to the sentinel `-1`. -/
theorem c2_correct_transfer_to_from (tx : YNABTransaction) (h : is_transfer tx = true) :
    (0 < tx.outflow →
      correct_transfer_to_from tx = .ok { tx with payee := transfer_account tx }) ∧
    (tx.outflow = 0 → 0 < tx.inflow →
      correct_transfer_to_from tx =
        .ok { tx with
                account := transfer_account tx
                payee := tx.account
                running_balance := -1
                outflow := tx.inflow
                inflow := tx.outflow }) := by
  refine ⟨fun hpos => ?_, fun h0 _ => ?_⟩
  · simp [correct_transfer_to_from, h, hpos]
  · simp [correct_transfer_to_from, h, h0]

/-- Witness for C2 at the two concrete rows of the spec's end-to-end
example: the outflow-side row keeps everything but the payee, the
inflow-side row is rewritten with swapped account/payee and amounts and
sentinel balance. -/
theorem c2_correct_transfer_to_from_witness :
    correct_transfer_to_from
        ⟨"A", "", ⟨2020, 1, 3⟩, "Transfer : B", "", "", "", "", 50, 0, "", 950⟩ =
      .ok ⟨"A", "", ⟨2020, 1, 3⟩, "B", "", "", "", "", 50, 0, "", 950⟩ ∧
    correct_transfer_to_from
        ⟨"B", "", ⟨2020, 1, 3⟩, "Transfer : A", "", "", "", "", 0, 50, "", 550⟩ =
      .ok ⟨"A", "", ⟨2020, 1, 3⟩, "B", "", "", "", "", 50, 0, "", -1⟩ := by
  constructor
  · exact (c2_correct_transfer_to_from
      ⟨"A", "", ⟨2020, 1, 3⟩, "Transfer : B", "", "", "", "", 50, 0, "", 950⟩ (by decide)).1
      (by decide)
  · exact (c2_correct_transfer_to_from
      ⟨"B", "", ⟨2020, 1, 3⟩, "Transfer : A", "", "", "", "", 0, 50, "", 550⟩ (by decide)).2
      rfl (by decide)

/-- Claim C6 (code bug): the source builds `currencies_to_keep` — the
default currency, `"EUR"`, and every account's configured foreign
currency — but the enable/disable loop tests membership in the hardcoded
list `[config.currency, "INR", "EUR"]` instead, so an enabled
account-configured currency (here `"JPY"`) is disabled rather than kept
enabled. -/
theorem c6_account_currency_gets_disabled :
    "JPY" ∈ currencies_to_keep ⟨[("Acct", ⟨"JPY"⟩)], [], "USD", []⟩ ∧
    create_currencies ⟨[("Acct", ⟨"JPY"⟩)], [], "USD", []⟩
        [⟨"USD", true, true⟩, ⟨"JPY", false, true⟩] =
      [CurrencyAction.disable "JPY"] := by
  decide

/-- Claim C9 (code bug): with two groups in consecutive months and a remote
that accepts every batch, the submission loop runs to completion without
ever invoking the balance verification — the source recomputes `tx_month`
from `transaction_groups[0]` instead of the current group, so the month
boundary between the two groups is never detected. -/
theorem c9_checkpoint_never_triggers :
    create_transactions [⟨[⟨⟨2020, 1, 15⟩⟩]⟩, ⟨[⟨⟨2020, 2, 10⟩⟩]⟩] none none
        (fun _ => .success) (fun _ => true) =
      ⟨none, 2, 0, []⟩ ∧
    monthOf ⟨2020, 1, 15⟩ ≠ monthOf ⟨2020, 2, 10⟩ := by
  decide

/-- Claim C4: on a foreign-currency account whose memo matches `MEMO_RE`
with the account's configured currency code, `_amount` resolves to the
memo-parsed decimal value (signed positively for an outflow row), never to
the fallback product; the configured fallback rate is applied only when
the memo does not yield a matching currency code. -/
theorem c4_memo_wins_over_fallback :
    (∀ (cfg : Config) (tx : YNABTransaction) (g1 g2 : String) (k : Bool)
       (g4 : Option String) (v : ℚ),
      is_foreign cfg tx.account = true →
      memoMatch tx.memo = some (g1, g2, k, g4) →
      g1 = (acc_config cfg tx.account).currency →
      parseDecimal (stripCommas g2) = some v →
      amount_of cfg tx = .ok (v * (if 0 < tx.inflow then -1 else 1)) ∧
        (tx.inflow = 0 → amount_of cfg tx = .ok v)) ∧
    (∀ (cfg : Config) (tx : YNABTransaction) (r : ℚ),
      is_foreign cfg tx.account = true →
      (∀ g1 g2 k g4, memoMatch tx.memo = some (g1, g2, k, g4) →
        g1 ≠ (acc_config cfg tx.account).currency) →
      cfg.currency_conv_fallback.lookup (acc_config cfg tx.account).currency = some r →
      r ≠ 0 →
      amount_of cfg tx = .ok (outflowOrInflow tx * r)) := by
  constructor
  · intro cfg tx g1 g2 k g4 v hf hm hg hp
    subst hg
    constructor
    · simp [amount_of, hf, hm, hp]
    · intro h0
      simp [amount_of, hf, hm, hp, h0]
  · intro cfg tx r hf hnm hl hr
    match hmm : memoMatch tx.memo with
    | some (g1, g2, k, g4) =>
      have hne := hnm g1 g2 k g4 hmm
      simp [amount_of, hf, hmm, hne, amount_fallback, hl, hr]
    | none =>
      simp [amount_of, hf, hmm, amount_fallback, hl, hr]

unseal Rat.add Rat.mul Rat.inv Rat.sub in
/-- Witness for C4 at the spec's example: memo `"USD 120.50;lunch"` on a
USD-configured account (default currency CAD) with fallback rate `1.1`
resolves to `120.50`, which differs from the fallback product `110`. -/
theorem c4_memo_wins_over_fallback_witness :
    amount_of ⟨[("F", ⟨"USD"⟩)], [("USD", 11 / 10)], "CAD", []⟩
        ⟨"F", "", ⟨2020, 1, 5⟩, "Shop", "", "", "", "USD 120.50;lunch", 100, 0, "", 1000⟩ =
      .ok (241 / 2) ∧
    (241 / 2 : ℚ) ≠ 100 * (11 / 10) := by
  constructor
  · exact (c4_memo_wins_over_fallback.1
      ⟨[("F", ⟨"USD"⟩)], [("USD", 11 / 10)], "CAD", []⟩
      ⟨"F", "", ⟨2020, 1, 5⟩, "Shop", "", "", "", "USD 120.50;lunch", 100, 0, "", 1000⟩
      "USD" "120.50" false (some ";lunch") (241 / 2)
      (by decide) (by decide) (by decide) (by decide)).2 rfl
  · decide

/-- Claim C5: for a transfer between a default-currency account and a
foreign one — the direction in which `_transfer_foreign_amount` derives
both a memo value and a fallback value — the resolver returns the
memo-derived amount when it agrees with the fallback-derived amount
(outflow-or-inflow times the configured rate) within 20% relative
tolerance, and fails fatally when they differ by more; when neither a
matching memo nor a truthy fallback is available it fails with the
configuration error.  In the opposite (foreign to default) direction the
function returns the raw row amount. -/
theorem c5_foreign_amount_tolerance :
    (∀ (cfg : Config) (tx : YNABTransaction) (g1 g2 : String) (k : Bool)
       (g4 : Option String) (a fb : ℚ),
      containsSub tx.payee "Transfer : " = false →
      is_foreign cfg tx.account = false →
      is_foreign cfg tx.payee = true →
      memoMatch tx.memo = some (g1, g2, k, g4) →
      g1 = (acc_config cfg tx.payee).currency →
      parseDecimal (stripCommas g2) = some a →
      fallback_amount_opt cfg (acc_config cfg tx.payee).currency tx = some fb →
      fb ≠ 0 →
      ((|a - fb| / fb ≤ 1 / 5 → transfer_foreign_amount cfg tx = .ok (some a)) ∧
       (¬(|a - fb| / fb ≤ 1 / 5) →
         transfer_foreign_amount cfg tx = .error "AssertionError: foreign amount tolerance"))) ∧
    (∀ (cfg : Config) (tx : YNABTransaction),
      containsSub tx.payee "Transfer : " = false →
      is_foreign cfg tx.account = false →
      is_foreign cfg tx.payee = true →
      (∀ g1 g2 k g4, memoMatch tx.memo = some (g1, g2, k, g4) →
        g1 ≠ (acc_config cfg tx.payee).currency) →
      truthyQ (fallback_amount_opt cfg (acc_config cfg tx.payee).currency tx) = false →
      transfer_foreign_amount cfg tx = .error "ValueError: set currency_conv_fallback") ∧
    (∀ (cfg : Config) (tx : YNABTransaction),
      containsSub tx.payee "Transfer : " = false →
      is_foreign cfg tx.account = true →
      is_foreign cfg tx.payee = false →
      transfer_foreign_amount cfg tx = .ok (some (outflowOrInflow tx))) := by
  refine ⟨?_, ?_, ?_⟩
  · intro cfg tx g1 g2 k g4 a fb hP hA hB hm hg hp hFb hfb0
    subst hg
    have hK : g2 ≠ "K" := by
      intro hK
      rw [hK] at hp
      simp [stripCommas, parseDecimal, splitOnS, splitOnLF, isPrefixL, allDigits,
        isDigitChar] at hp
    have htr : truthyQ (some fb) = true := by simp [truthyQ, hfb0]
    constructor
    · intro htol
      rw [one_div] at htol
      simp [transfer_foreign_amount, hP, hA, hB, hm, hp, hFb, hK, htr, htol]
    · intro htol
      rw [one_div] at htol
      simp [transfer_foreign_amount, hP, hA, hB, hm, hp, hFb, hK, htr, htol, not_le.mp htol]
  · intro cfg tx hP hA hB hnm hT
    match hmm : memoMatch tx.memo with
    | some (g1, g2, k, g4) =>
      have hne := hnm g1 g2 k g4 hmm
      simp [transfer_foreign_amount, hP, hA, hB, hmm, hne, hT]
    | none =>
      simp [transfer_foreign_amount, hP, hA, hB, hmm, hT]
  · intro cfg tx hP hA hB
    simp [transfer_foreign_amount, hP, hA, hB]

unseal Rat.add Rat.mul Rat.inv Rat.sub in
/-- Witness for C5: a corrected transfer from default-currency "Checking"
to USD-account "F" with fallback rate `1.1` and outflow `100` (fallback
value `110`): memo value `105` is within 20% and is returned; memo value
`200` exceeds the tolerance and the resolver fails. -/
theorem c5_foreign_amount_tolerance_witness :
    transfer_foreign_amount ⟨[("F", ⟨"USD"⟩)], [("USD", 11 / 10)], "CAD", []⟩
        ⟨"Checking", "", ⟨2020, 2, 1⟩, "F", "", "", "", "USD 105;trip", 100, 0, "", 900⟩ =
      .ok (some 105) ∧
    transfer_foreign_amount ⟨[("F", ⟨"USD"⟩)], [("USD", 11 / 10)], "CAD", []⟩
        ⟨"Checking", "", ⟨2020, 2, 1⟩, "F", "", "", "", "USD 200;trip", 100, 0, "", 900⟩ =
      .error "AssertionError: foreign amount tolerance" := by
  constructor
  · exact (c5_foreign_amount_tolerance.1
      ⟨[("F", ⟨"USD"⟩)], [("USD", 11 / 10)], "CAD", []⟩
      ⟨"Checking", "", ⟨2020, 2, 1⟩, "F", "", "", "", "USD 105;trip", 100, 0, "", 900⟩
      "USD" "105" false (some ";trip") 105 110
      (by decide) (by decide) (by decide) (by decide) (by decide) (by decide) (by decide)
      (by decide)).1 (by decide)
  · exact (c5_foreign_amount_tolerance.1
      ⟨[("F", ⟨"USD"⟩)], [("USD", 11 / 10)], "CAD", []⟩
      ⟨"Checking", "", ⟨2020, 2, 1⟩, "F", "", "", "", "USD 200;trip", 100, 0, "", 900⟩
      "USD" "200" false (some ";trip") 200 110
      (by decide) (by decide) (by decide) (by decide) (by decide) (by decide) (by decide)
      (by decide)).2 (by decide)

unseal Rat.add Rat.mul Rat.inv Rat.sub in
/-- Counterexample to claim C3 as stated: a deposit row (inflow `100`) on a
foreign-currency account whose memo yields the account currency is emitted
as a Deposit leg whose amount is the *negated* memo value `-120.50` — a
strictly negative amount (`_amount` multiplies the memo value by `-1`
whenever `tx.inflow > 0`). -/
theorem c3_counterexample_negative_deposit :
    processRowLeg ⟨[("F", ⟨"USD"⟩)], [("USD", 11 / 10)], "CAD", []⟩ (fun _ => 0)
        ⟨"F", "", ⟨2020, 1, 5⟩, "Shop", "", "", "", "USD 120.50;x", 0, 100, "", 50⟩ =
      some (some (Leg.deposit "F" "Shop" ⟨2020, 1, 5⟩ (-(241 / 2)))) ∧
    (-(241 / 2) : ℚ) < 0 := by
  decide

/-- With positive configured rates, a successful fallback conversion of a
positive amount is positive. -/
theorem amount_fallback_pos (cfg : Config) (fcc : String) (amt a : ℚ)
    (hr : ratesPos cfg) (hamt : 0 < amt) (hA : amount_fallback cfg fcc amt = .ok a) :
    0 < a := by
  unfold amount_fallback at hA
  rcases hl : cfg.currency_conv_fallback.lookup fcc with _ | r
  · rw [hl] at hA; simp at hA
  · rw [hl] at hA
    dsimp only at hA
    have hrpos := hr _ _ hl
    rw [if_pos (ne_of_gt hrpos), Except.ok.injEq] at hA
    rw [← hA]
    positivity

/-- Claim C3, amended: every emitted leg's direction is determined solely
by which of outflow/inflow was positive (transfer rows aside), and its
amount is `_amount`'s result; that amount is strictly positive for every
leg resolved from a row with positive outflow and zero inflow (hence for
Withdrawals and for corrected Transfer rows) and for Deposits that are not
memo-resolved on a foreign account — but a Deposit on a foreign-currency
account whose memo yields the account currency receives the *negated*
memo value, which is strictly negative. -/
theorem c3_amount_sign :
    (∀ (cfg : Config) (seen : TKey → Nat) (tx : YNABTransaction) (a : ℚ),
      is_transfer tx = false → 0 < tx.outflow →
      amount_of cfg tx = .ok a →
      processRowLeg cfg seen tx =
        some (some (Leg.withdrawal tx.account (payee_of cfg tx) tx.date a))) ∧
    (∀ (cfg : Config) (seen : TKey → Nat) (tx : YNABTransaction) (a : ℚ),
      is_transfer tx = false → tx.outflow = 0 → 0 < tx.inflow →
      amount_of cfg tx = .ok a →
      processRowLeg cfg seen tx =
        some (some (Leg.deposit tx.account (payee_of cfg tx) tx.date a))) ∧
    (∀ (cfg : Config) (seen : TKey → Nat) (tx tx1 : YNABTransaction) (a : ℚ)
       (famt : Option ℚ),
      is_transfer tx = true →
      correct_transfer_to_from tx = .ok tx1 →
      dedupKeep seen (transferKey tx1) = true →
      amount_of cfg tx1 = .ok a →
      transfer_foreign_amount cfg tx1 = .ok famt →
      processRowLeg cfg seen tx =
        some (some (Leg.transfer tx1.account tx1.payee tx1.date a famt))) ∧
    (∀ (tx tx1 : YNABTransaction),
      correct_transfer_to_from tx = .ok tx1 →
      (0 < tx.outflow → tx1.outflow = tx.outflow ∧ tx1.inflow = tx.inflow) ∧
      (tx.outflow = 0 → tx1.outflow = tx.inflow ∧ tx1.inflow = 0)) ∧
    (∀ (cfg : Config) (tx : YNABTransaction) (a : ℚ),
      ratesPos cfg → memoValPos tx.memo →
      tx.inflow = 0 → 0 < tx.outflow →
      amount_of cfg tx = .ok a → 0 < a) ∧
    (∀ (cfg : Config) (tx : YNABTransaction) (a : ℚ),
      ratesPos cfg →
      tx.outflow = 0 → 0 < tx.inflow →
      ¬foreignMemoMatch cfg tx →
      amount_of cfg tx = .ok a → 0 < a) ∧
    (∀ (cfg : Config) (tx : YNABTransaction) (g2 : String) (k : Bool)
       (g4 : Option String) (v : ℚ),
      tx.outflow = 0 → 0 < tx.inflow →
      is_foreign cfg tx.account = true →
      memoMatch tx.memo = some ((acc_config cfg tx.account).currency, g2, k, g4) →
      parseDecimal (stripCommas g2) = some v → 0 < v →
      amount_of cfg tx = .ok (-v) ∧ -v < 0) := by
  refine ⟨?_, ?_, ?_, ?_, ?_, ?_, ?_⟩
  · intro cfg seen tx a hT hpos hA
    simp [processRowLeg, processRow, hT, hpos, hA]
  · intro cfg seen tx a hT h0 hin hA
    simp [processRowLeg, processRow, hT, h0, hin, hA]
  · intro cfg seen tx tx1 a famt hT hc hkeep hA hF
    simp [processRowLeg, processRow, hT, hc, hkeep, hA, hF]
  · intro tx tx1 hc
    by_cases hT : is_transfer tx
    · constructor
      · intro hpos
        simp [correct_transfer_to_from, hT, hpos] at hc
        subst hc
        exact ⟨rfl, rfl⟩
      · intro h0
        simp [correct_transfer_to_from, hT, h0] at hc
        subst hc
        exact ⟨rfl, h0 ▸ rfl⟩
    · simp [correct_transfer_to_from, hT] at hc
  · intro cfg tx a hr hm h0 hpos hA
    have hno : outflowOrInflow tx = tx.outflow := by
      simp [outflowOrInflow, ne_of_gt hpos]
    have hamt : 0 < outflowOrInflow tx := hno ▸ hpos
    cases hf : is_foreign cfg tx.account
    · simp only [amount_of, hf, Bool.not_false, if_true, Except.ok.injEq] at hA
      rw [← hA]
      exact hamt
    · simp only [amount_of, hf, Bool.not_true, Bool.false_eq_true, if_false] at hA
      rcases hmm : memoMatch tx.memo with _ | ⟨g1, g2, k, g4⟩
      · rw [hmm] at hA
        dsimp only at hA
        exact amount_fallback_pos _ _ _ _ hr hamt hA
      · rw [hmm] at hA
        dsimp only at hA
        by_cases hg : g1 = (acc_config cfg tx.account).currency
        · rw [if_pos hg] at hA
          rcases hp : parseDecimal (stripCommas g2) with _ | v
          · rw [hp] at hA; simp at hA
          · rw [hp] at hA
            have hv := hm _ _ _ _ _ hmm hp
            rw [h0] at hA
            simp only [gt_iff_lt, lt_self_iff_false, if_false, mul_one,
              Except.ok.injEq] at hA
            rw [← hA]
            exact hv
        · rw [if_neg hg] at hA
          exact amount_fallback_pos _ _ _ _ hr hamt hA
  · intro cfg tx a hr h0 hin hnf hA
    have hno : outflowOrInflow tx = tx.inflow := by
      simp [outflowOrInflow, h0]
    have hamt : 0 < outflowOrInflow tx := hno ▸ hin
    cases hf : is_foreign cfg tx.account
    · simp only [amount_of, hf, Bool.not_false, if_true, Except.ok.injEq] at hA
      rw [← hA]
      exact hamt
    · simp only [amount_of, hf, Bool.not_true, Bool.false_eq_true, if_false] at hA
      rcases hmm : memoMatch tx.memo with _ | ⟨g1, g2, k, g4⟩
      · rw [hmm] at hA
        dsimp only at hA
        exact amount_fallback_pos _ _ _ _ hr hamt hA
      · rw [hmm] at hA
        dsimp only at hA
        by_cases hg : g1 = (acc_config cfg tx.account).currency
        · exact absurd ⟨hf, g2, k, g4, hg ▸ hmm⟩ hnf
        · rw [if_neg hg] at hA
          exact amount_fallback_pos _ _ _ _ hr hamt hA
  · intro cfg tx g2 k g4 v h0 hin hf hmm hp hv
    refine ⟨?_, by linarith⟩
    simp [amount_of, hf, hmm, hp, hin]

unseal Rat.add Rat.mul Rat.inv Rat.sub in
/-- Witness for the amended C3: a plain withdrawal row is emitted as a
Withdrawal leg with its (positive) outflow as amount, and a foreign-memo
deposit row resolves to the negated memo value. -/
theorem c3_amount_sign_witness :
    processRowLeg ⟨[], [], "USD", []⟩ (fun _ => 0)
        ⟨"Checking", "", ⟨2020, 1, 2⟩, "Shop", "", "", "", "", 25, 0, "", 100⟩ =
      some (some (Leg.withdrawal "Checking" "Shop" ⟨2020, 1, 2⟩ 25)) ∧
    (amount_of ⟨[("F", ⟨"USD"⟩)], [], "CAD", []⟩
        ⟨"F", "", ⟨2020, 1, 5⟩, "Shop", "", "", "", "USD 120.50;x", 0, 100, "", 50⟩ =
      .ok (-(241 / 2)) ∧ (-(241 / 2) : ℚ) < 0) := by
  constructor
  · exact c3_amount_sign.1 _ _ _ 25 (by decide) (by decide) (by decide)
  · exact c3_amount_sign.2.2.2.2.2.2 _ _ "120.50" false (some ";x") (241 / 2) rfl
      (by decide) (by decide) (by decide) (by decide) (by decide)

/-- Parity bookkeeping of the dedup counter: one more sighting of `k`
flips the parity at `k` and changes nothing elsewhere. -/
theorem dedupNext_parity (seen : TKey → Nat) (k t : TKey) :
    dedupNext seen k t % 2 = (seen t + if t = k then 1 else 0) % 2 := by
  rcases Nat.mod_two_eq_zero_or_one (seen k) with h | h
  · have hb : (seen k % 2 == 1) = false := by simp [h]
    by_cases ht : t = k
    · subst ht; simp [dedupNext, hb]; omega
    · simp [dedupNext, hb, ht]
  · have hb : (seen k % 2 == 1) = true := by simp [h]
    by_cases ht : t = k
    · subst ht; simp [dedupNext, hb]
    · simp [dedupNext, hb, ht]

/-- Positional description of the dedup pass: starting from counters
`seen`, the `i`-th key is kept exactly when `seen` at that key plus the
number of its earlier sightings is even. -/
theorem keptFlags_getD (ks : List TKey) : ∀ (seen : TKey → Nat) (i : Nat), i < ks.length →
    (keptFlags seen ks).getD i false =
      decide ((seen (ks.getD i dfltTKey) + countKey (ks.getD i dfltTKey) (ks.take i)) % 2 = 0) := by
  induction ks with
  | nil => intro seen i h; simp at h
  | cons k ks ih =>
    intro seen i h
    cases i with
    | zero =>
      rcases Nat.mod_two_eq_zero_or_one (seen k) with h2 | h2 <;>
        simp [keptFlags, dedupKeep, countKey, h2]
    | succ i =>
      have h' : i < ks.length := by simpa using h
      rw [show keptFlags seen (k :: ks) = dedupKeep seen k :: keptFlags (dedupNext seen k) ks
          from rfl]
      rw [List.getD_cons_succ, List.getD_cons_succ, ih (dedupNext seen k) i h',
        List.take_succ_cons, decide_eq_decide]
      have hp := dedupNext_parity seen k (ks.getD i dfltTKey)
      by_cases ht : ks.getD i dfltTKey = k
      · simp only [ht, if_pos rfl] at hp
        simp only [countKey, ht, if_pos rfl]
        omega
      · have ht2 : k ≠ ks.getD i dfltTKey := fun hh => ht hh.symm
        rw [if_neg ht, add_zero] at hp
        simp only [countKey, if_neg ht2]
        omega

/-- The two physical rows of one transfer (one logged with the outflow, the
mirrored one with the inflow) produce the same dedup key after
correction. -/
theorem transferKey_mirror (tx1 tx2 u1 u2 : YNABTransaction)
    (h1 : is_transfer tx1 = true) (h2 : is_transfer tx2 = true)
    (hc1 : correct_transfer_to_from tx1 = .ok u1)
    (hc2 : correct_transfer_to_from tx2 = .ok u2)
    (hta1 : transfer_account tx1 = tx2.account)
    (hta2 : transfer_account tx2 = tx1.account)
    (hd : tx1.date = tx2.date)
    (hout2 : tx2.outflow = 0) (hpos1 : 0 < tx1.outflow)
    (hoi : tx1.outflow = tx2.inflow) (hio : tx1.inflow = tx2.outflow) :
    transferKey u2 = transferKey u1 := by
  simp only [correct_transfer_to_from, h1, Bool.not_true, Bool.false_eq_true,
    if_false, ite_false, hpos1, if_pos, Except.ok.injEq] at hc1
  simp only [correct_transfer_to_from, h2, Bool.not_true, Bool.false_eq_true,
    if_false, ite_false, hout2, lt_self_iff_false, if_neg, Except.ok.injEq] at hc2
  subst hc1
  subst hc2
  simp only [transferKey, hta1, hta2, hd, hoi, hio, hout2]

/-- On a transfer row the correction step always succeeds, returning
`correctVal`. -/
theorem correct_transfer_ok (tx : YNABTransaction) (htx : is_transfer tx = true) :
    correct_transfer_to_from tx = .ok (correctVal tx) := by
  rcases hcc : correct_transfer_to_from tx with e | u
  · unfold correct_transfer_to_from at hcc
    rw [if_neg (by simp [htx])] at hcc
    by_cases hp : 0 < tx.outflow
    · rw [if_pos hp] at hcc; simp at hcc
    · rw [if_neg hp] at hcc; simp at hcc
  · simp [correctVal, hcc]

/-- A successful iteration of the row loop on a transfer row advances the
seen-map with `dedupNext` and emits a leg exactly when the dedup test
keeps the corrected key. -/
theorem processRow_transfer_ok (cfg : Config) (seen : TKey → Nat) (tx u : YNABTransaction)
    (seen1 : TKey → Nat) (leg : Option Leg)
    (htx : is_transfer tx = true) (hc : correct_transfer_to_from tx = .ok u)
    (h : processRow cfg seen tx = .ok (seen1, leg)) :
    seen1 = dedupNext seen (transferKey u) ∧
      leg.isSome = dedupKeep seen (transferKey u) := by
  rw [processRow, if_pos htx, hc] at h
  dsimp only at h
  by_cases hk : dedupKeep seen (transferKey u) = true
  · simp only [hk, Bool.not_true, Bool.false_eq_true, if_false] at h
    rcases ha : amount_of cfg u with e | a <;> rw [ha] at h <;> dsimp only at h
    · simp at h
    · rcases hf : transfer_foreign_amount cfg u with e | famt <;> rw [hf] at h <;>
        dsimp only at h
      · simp at h
      · rw [Except.ok.injEq, Prod.mk.injEq] at h
        refine ⟨h.1.symm, ?_⟩
        rw [← h.2, hk]
        rfl
  · have hk' : dedupKeep seen (transferKey u) = false := by
      revert hk
      cases dedupKeep seen (transferKey u) <;> simp
    simp only [hk', Bool.not_false, if_true] at h
    rw [Except.ok.injEq, Prod.mk.injEq] at h
    refine ⟨h.1.symm, ?_⟩
    rw [← h.2, hk']
    rfl

/-- The row loop on a stream of transfer rows emits exactly as many
Transfer legs as the dedup pass keeps. -/
theorem processRows_transfer_count (cfg : Config) : ∀ (rows : List YNABTransaction)
    (seen : TKey → Nat) (legs : List Leg),
    (∀ tx ∈ rows, is_transfer tx = true) →
    processRows cfg seen rows = .ok legs →
    legs.length =
      (keptFlags seen (rows.map fun tx => transferKey (correctVal tx))).count true := by
  intro rows
  induction rows with
  | nil =>
    intro seen legs _ h
    rw [processRows, Except.ok.injEq] at h
    rw [← h]
    simp [keptFlags]
  | cons tx rest ih =>
    intro seen legs hall h
    have htx := hall tx (List.mem_cons_self _ _)
    rw [processRows] at h
    rcases hpr : processRow cfg seen tx with e | pr <;> rw [hpr] at h <;> dsimp only at h
    · simp at h
    · obtain ⟨seen1, leg⟩ := pr
      rcases hrr : processRows cfg seen1 rest with e | legs2 <;> rw [hrr] at h <;>
        dsimp only at h
      · simp at h
      · rw [Except.ok.injEq] at h
        have hco := correct_transfer_ok tx htx
        obtain ⟨hs1, hls⟩ := processRow_transfer_ok cfg seen tx (correctVal tx) seen1 leg
          htx hco hpr
        subst hs1
        have hrec := ih (dedupNext seen (transferKey (correctVal tx))) legs2
          (fun t ht => hall t (List.mem_cons_of_mem _ ht)) hrr
        rw [List.map_cons,
          show keptFlags seen
              (transferKey (correctVal tx) ::
                rest.map fun t => transferKey (correctVal t)) =
            dedupKeep seen (transferKey (correctVal tx)) ::
              keptFlags (dedupNext seen (transferKey (correctVal tx)))
                (rest.map fun t => transferKey (correctVal t)) from rfl,
          List.count_cons]
        cases leg with
        | none =>
          dsimp only at h
          rw [← h, hrec, ← hls]
          simp
        | some l =>
          dsimp only at h
          rw [← h, List.length_cons, hrec, ← hls]
          simp

/-- Claim C1: per-key sightings of the transfer dedup map alternate
keep/discard (a sighting is kept exactly when its number of earlier
same-key sightings is even, so the first is kept, the second discarded,
the third kept again); the two physical rows of one transfer share one
dedup key regardless of which row carried the inflow; running the row
loop on such a mirrored pair emits exactly one Transfer leg; and on any
stream of transfer rows the loop emits exactly as many Transfer legs as
the dedup pass keeps. -/
theorem c1_transfer_dedup :
    (∀ (ks : List TKey) (i : Nat), i < ks.length →
      (keptFlags (fun _ => 0) ks).getD i false =
        decide (countKey (ks.getD i dfltTKey) (ks.take i) % 2 = 0)) ∧
    (∀ (tx1 tx2 u1 u2 : YNABTransaction),
      is_transfer tx1 = true → is_transfer tx2 = true →
      correct_transfer_to_from tx1 = .ok u1 →
      correct_transfer_to_from tx2 = .ok u2 →
      transfer_account tx1 = tx2.account →
      transfer_account tx2 = tx1.account →
      tx1.date = tx2.date →
      tx2.outflow = 0 → 0 < tx1.outflow →
      tx1.outflow = tx2.inflow → tx1.inflow = tx2.outflow →
      transferKey u2 = transferKey u1) ∧
    (∀ (cfg : Config) (tx1 tx2 u1 : YNABTransaction) (a : ℚ) (famt : Option ℚ),
      is_transfer tx1 = true → is_transfer tx2 = true →
      correct_transfer_to_from tx1 = .ok u1 →
      transfer_account tx1 = tx2.account →
      transfer_account tx2 = tx1.account →
      tx1.date = tx2.date →
      tx2.outflow = 0 → 0 < tx1.outflow →
      tx1.outflow = tx2.inflow → tx1.inflow = tx2.outflow →
      amount_of cfg u1 = .ok a →
      transfer_foreign_amount cfg u1 = .ok famt →
      processRows cfg (fun _ => 0) [tx1, tx2] =
        .ok [Leg.transfer u1.account u1.payee u1.date a famt]) ∧
    (∀ (cfg : Config) (rows : List YNABTransaction) (seen : TKey → Nat) (legs : List Leg),
      (∀ tx ∈ rows, is_transfer tx = true) →
      processRows cfg seen rows = .ok legs →
      legs.length =
        (keptFlags seen (rows.map fun tx => transferKey (correctVal tx))).count true) := by
  refine ⟨?_, ?_, ?_, ?_⟩
  · intro ks i h
    simpa using keptFlags_getD ks (fun _ => 0) i h
  · intro tx1 tx2 u1 u2 h1 h2 hc1 hc2 hta1 hta2 hd hout2 hpos1 hoi hio
    exact transferKey_mirror tx1 tx2 u1 u2 h1 h2 hc1 hc2 hta1 hta2 hd hout2 hpos1 hoi hio
  · intro cfg tx1 tx2 u1 a famt h1 h2 hc1 hta1 hta2 hd hout2 hpos1 hoi hio hA hF
    have hc2 : correct_transfer_to_from tx2 =
        .ok { tx2 with
                account := transfer_account tx2
                payee := tx2.account
                running_balance := -1
                outflow := tx2.inflow
                inflow := tx2.outflow } := by
      simp [correct_transfer_to_from, h2, hout2]
    have hkey := transferKey_mirror tx1 tx2 u1 _ h1 h2 hc1 hc2 hta1 hta2 hd hout2 hpos1 hoi hio
    simp [processRows, processRow, h1, h2, hc1, hc2, hkey, hA, hF, dedupKeep, dedupNext]
  · intro cfg rows seen legs hall h
    exact processRows_transfer_count cfg rows seen legs hall h

/-- Witness for C1 at the spec's end-to-end example: rows
`A | Transfer : B | outflow 50` and `B | Transfer : A | inflow 50` on the
same date produce exactly one `Transfer(from=A, to=B, amount=50)`. -/
theorem c1_transfer_dedup_witness :
    processRows ⟨[], [], "USD", []⟩ (fun _ => 0)
        [⟨"A", "", ⟨2020, 1, 3⟩, "Transfer : B", "", "", "", "", 50, 0, "", 950⟩,
         ⟨"B", "", ⟨2020, 1, 3⟩, "Transfer : A", "", "", "", "", 0, 50, "", 550⟩] =
      .ok [Leg.transfer "A" "B" ⟨2020, 1, 3⟩ 50 none] := by
  exact c1_transfer_dedup.2.2.1 ⟨[], [], "USD", []⟩
    ⟨"A", "", ⟨2020, 1, 3⟩, "Transfer : B", "", "", "", "", 50, 0, "", 950⟩
    ⟨"B", "", ⟨2020, 1, 3⟩, "Transfer : A", "", "", "", "", 0, 50, "", 550⟩
    ⟨"A", "", ⟨2020, 1, 3⟩, "B", "", "", "", "", 50, 0, "", 950⟩ 50 none
    (by decide) (by decide) (by decide) (by decide) (by decide) (by decide) rfl
    (by decide) (by decide) (by decide) (by decide) (by decide)

/-- Claim C7: reconciling budgets issues an update (PUT) call for exactly
those cached entities whose desired attributes differ from the remote ones
under `_firefly_needs_update`; `_firefly_needs_update` fires exactly when
some desired field disagrees with the remote attribute under the
type-aware `_firefly_compare` (dates as formatted calendar dates, numerics
as decimal values, remote-null numerics as zero); in particular a cached
budget with identical attributes issues zero calls, and flipping its
single `active` attribute issues exactly one update call. -/
theorem c7_update_iff_diff :
    (∀ (budgets : List ImportBudget) (cache : List (String × FFObj)),
      (create_budgets budgets cache).countP isPut =
        budgets.countP (budgetNeedsUpdate cache)) ∧
    (∀ (dataL attrs : List (String × FValue)),
      firefly_needs_update dataL attrs = true ↔
        ∃ kv ∈ dataL, firefly_compare kv.2 ((attrs.lookup kv.1).getD .null) = false) ∧
    create_budgets [⟨"Groceries", true⟩]
        [("Groceries", ⟨7, [("name", .str "Groceries"), ("active", .bool true)]⟩)] = [] ∧
    create_budgets [⟨"Groceries", false⟩]
        [("Groceries", ⟨7, [("name", .str "Groceries"), ("active", .bool true)]⟩)] =
      [.put 7 (budgetData ⟨"Groceries", false⟩)] := by
  refine ⟨?_, ?_, by decide, by decide⟩
  · intro budgets cache
    induction budgets with
    | nil => simp [create_budgets]
    | cons b bs ih =>
      rw [show create_budgets (b :: bs) cache =
            (match cache.lookup b.name with
             | some ff =>
               if firefly_needs_update (budgetData b) ff.attributes then
                 [.put ff.id (budgetData b)]
               else []
             | none => [.post (budgetData b)]) ++ create_budgets bs cache
          from List.flatMap_cons ..]
      rw [List.countP_append, List.countP_cons, ih]
      rcases hl : cache.lookup b.name with _ | ff
      · simp [budgetNeedsUpdate, hl, isPut]
      · by_cases hu : firefly_needs_update (budgetData b) ff.attributes
        · simp [budgetNeedsUpdate, hl, isPut, hu]
          omega
        · simp [budgetNeedsUpdate, hl, isPut, hu]
  · intro dataL attrs
    simp [firefly_needs_update, List.any_eq_true, Bool.not_eq_true']

/-- Witness for C7: the put-count equation evaluated on a one-budget
desired set against a cache carrying identical attributes (no update) and
the needs-update test evaluated on a changed `active` field. -/
theorem c7_update_iff_diff_witness :
    (create_budgets [⟨"Rent", true⟩]
        [("Rent", ⟨3, [("name", .str "Rent"), ("active", .bool true)]⟩)]).countP isPut =
      List.countP
        (budgetNeedsUpdate [("Rent", ⟨3, [("name", .str "Rent"), ("active", .bool true)]⟩)])
        [⟨"Rent", true⟩] ∧
    (firefly_needs_update (budgetData ⟨"Rent", false⟩)
        [("name", .str "Rent"), ("active", .bool true)] = true ↔
      ∃ kv ∈ budgetData ⟨"Rent", false⟩,
        firefly_compare kv.2
          (([("name", FValue.str "Rent"), ("active", FValue.bool true)].lookup kv.1).getD
            .null) = false) :=
  ⟨c7_update_iff_diff.1 _ _, c7_update_iff_diff.2.1 _ _⟩

/-- `setA` never produces the empty association list. -/
theorem setA_ne_nil {α β : Type} [BEq α] (l : List (α × β)) (k : α) (v : β) :
    setA l k v ≠ [] := by
  cases l with
  | nil => simp [setA]
  | cons p rest =>
    obtain ⟨k1, v1⟩ := p
    simp only [setA]
    split <;> simp

/-- A successful `classifyError` step never empties the two non-duplicate
error collections. -/
theorem classifyError_mono (st : TxErrors) (f : String) (errs : List String)
    (st' : TxErrors) (h : classifyError st f errs = .ok st') :
    (st.other_tx_errors ≠ [] → st'.other_tx_errors ≠ []) ∧
    (st.other_errors ≠ [] → st'.other_errors ≠ []) := by
  unfold classifyError at h
  by_cases hf0 : (splitOnS f ".").getD 0 "" = "transactions"
  · rw [if_neg (not_not_intro hf0)] at h
    rcases hg1 : (splitOnS f ".").get? 1 with _ | s1 <;> rw [hg1] at h
    · simp at h
    · dsimp only at h
      rcases hp1 : parseNat s1 with _ | idx <;> rw [hp1] at h
      · simp at h
      · dsimp only at h
        rcases hg2 : (splitOnS f ".").get? 2 with _ | cf <;> rw [hg2] at h
        · simp at h
        · dsimp only at h
          by_cases hdup : (errs.length == 1 && (dupMatch (errs.getD 0 "")).isSome) = true
          · rw [if_pos hdup] at h
            by_cases hlk : (st.other_tx_errors.lookup idx).isSome = true
            · rw [if_pos hlk] at h; simp at h
            · rw [if_neg hlk, Except.ok.injEq] at h
              subst h
              exact ⟨fun hh => hh, fun hh => hh⟩
          · rw [if_neg hdup] at h
            by_cases hlk : (st.dup_errors.lookup idx).isSome = true
            · rw [if_pos hlk] at h; simp at h
            · rw [if_neg hlk, Except.ok.injEq] at h
              subst h
              exact ⟨fun _ => setA_ne_nil _ _ _, fun hh => hh⟩
  · rw [if_pos hf0, Except.ok.injEq] at h
    subst h
    exact ⟨fun hh => hh, fun _ => setA_ne_nil _ _ _⟩

/-- A successful `classifyErrors` run never empties the two non-duplicate
error collections. -/
theorem classifyErrors_mono : ∀ (es : List (String × List String)) (st st' : TxErrors),
    classifyErrors st es = .ok st' →
    (st.other_tx_errors ≠ [] → st'.other_tx_errors ≠ []) ∧
    (st.other_errors ≠ [] → st'.other_errors ≠ []) := by
  intro es
  induction es with
  | nil =>
    intro st st' h
    rw [classifyErrors, Except.ok.injEq] at h
    subst h
    exact ⟨fun hh => hh, fun hh => hh⟩
  | cons e rest ih =>
    intro st st' h
    obtain ⟨f, errs⟩ := e
    rw [classifyErrors] at h
    rcases hstep : classifyError st f errs with e1 | st1 <;> rw [hstep] at h
    · simp at h
    · dsimp only at h
      have h1 := classifyError_mono st f errs st1 hstep
      have h2 := ih st1 st' h
      exact ⟨fun hh => h2.1 (h1.1 hh), fun hh => h2.2 (h1.2 hh)⟩

/-- On a run of entries that are all duplicate-shaped, classification
succeeds, files every entry among the duplicates, and leaves the
non-duplicate collections as they were (starting from an empty
`other_tx_errors`). -/
theorem classifyErrors_all_dup : ∀ (es : List (String × List String)) (st : TxErrors),
    (∀ e ∈ es, isDupEntry e = true) → st.other_tx_errors = [] →
    ∃ st', classifyErrors st es = .ok st' ∧ st'.other_tx_errors = [] ∧
      st'.other_errors = st.other_errors := by
  intro es
  induction es with
  | nil =>
    intro st _ htx
    exact ⟨st, rfl, htx, rfl⟩
  | cons e rest ih =>
    intro st hdup htx
    obtain ⟨f, errs⟩ := e
    have hd : isDupEntry (f, errs) = true := hdup _ (List.mem_cons_self _ _)
    unfold isDupEntry at hd
    rw [Bool.and_eq_true, Bool.and_eq_true, Bool.and_eq_true, Bool.and_eq_true] at hd
    obtain ⟨⟨⟨⟨hf0, hg1⟩, hg2⟩, hlen⟩, hdm⟩ := hd
    dsimp only at hf0 hg1 hg2 hlen hdm
    rcases hq1 : (splitOnS f ".").get? 1 with _ | s1 <;> rw [hq1] at hg1 <;> dsimp only at hg1
    · exact absurd hg1 (by simp)
    · rcases hq2 : parseNat s1 with _ | idx
      · rw [hq2] at hg1; exact absurd hg1 (by simp)
      · have hstep : classifyError st f errs =
            .ok { st with
                    dup_errors := setA st.dup_errors idx ((dupMatch (errs.getD 0 "")).getD 0) } := by
          unfold classifyError
          rw [if_neg (not_not_intro (by simpa using hf0)), hq1]
          dsimp only
          rw [hq2]
          dsimp only
          rcases hq3 : (splitOnS f ".").get? 2 with _ | cf <;> rw [hq3] at hg2
          · exact absurd hg2 (by simp)
          · dsimp only
            rw [if_pos (by rw [Bool.and_eq_true]; exact ⟨hlen, hdm⟩), htx]
            simp [List.lookup]
        obtain ⟨st', hrun, htx', hoe'⟩ := ih
          { st with dup_errors := setA st.dup_errors idx ((dupMatch (errs.getD 0 "")).getD 0) }
          (fun e he => hdup e (List.mem_cons_of_mem _ he)) htx
        exact ⟨st', by rw [classifyErrors, hstep]; exact hrun, htx', hoe'⟩

/-- If classification succeeds with no non-duplicate transaction errors and
no top-level errors, then every entry of the payload was
duplicate-shaped. -/
theorem classifyErrors_empty_imp_dup :
    ∀ (es : List (String × List String)) (st st' : TxErrors),
    classifyErrors st es = .ok st' → st'.other_tx_errors = [] → st'.other_errors = [] →
    ∀ e ∈ es, isDupEntry e = true := by
  intro es
  induction es with
  | nil => intro st st' _ _ _ e he; simp at he
  | cons e0 rest ih =>
    intro st st' h htx hoe e he
    obtain ⟨f, errs⟩ := e0
    rw [classifyErrors] at h
    rcases hstep : classifyError st f errs with e1 | st1 <;> rw [hstep] at h
    · simp at h
    · dsimp only at h
      have hmono := classifyErrors_mono rest st1 st' h
      have htx1 : st1.other_tx_errors = [] := by
        by_contra hh
        exact (hmono.1 hh) htx
      have hoe1 : st1.other_errors = [] := by
        by_contra hh
        exact (hmono.2 hh) hoe
      have hd0 : isDupEntry (f, errs) = true := by
        unfold classifyError at hstep
        by_cases hf0 : (splitOnS f ".").getD 0 "" = "transactions"
        · rw [if_neg (not_not_intro hf0)] at hstep
          rcases hq1 : (splitOnS f ".").get? 1 with _ | s1 <;> rw [hq1] at hstep <;>
            dsimp only at hstep
          · simp at hstep
          · rcases hq2 : parseNat s1 with _ | idx <;> rw [hq2] at hstep <;>
              dsimp only at hstep
            · simp at hstep
            · rcases hq3 : (splitOnS f ".").get? 2 with _ | cf <;> rw [hq3] at hstep <;>
                dsimp only at hstep
              · simp at hstep
              · by_cases hdup : (errs.length == 1 && (dupMatch (errs.getD 0 "")).isSome) = true
                · rw [Bool.and_eq_true] at hdup
                  unfold isDupEntry
                  dsimp only
                  rw [hq1]
                  dsimp only
                  rw [hq2, hq3]
                  simp [hdup.1]
                  exact ⟨by simpa using hf0, by simpa using hdup.2⟩
                · rw [if_neg hdup] at hstep
                  by_cases hlk : (st.dup_errors.lookup idx).isSome = true
                  · rw [if_pos hlk] at hstep; simp at hstep
                  · rw [if_neg hlk, Except.ok.injEq] at hstep
                    have : st1.other_tx_errors ≠ [] := by
                      rw [← hstep]
                      exact setA_ne_nil _ _ _
                    exact absurd htx1 this
        · rw [if_pos hf0, Except.ok.injEq] at hstep
          have : st1.other_errors ≠ [] := by
            rw [← hstep]
            exact setA_ne_nil _ _ _
          exact absurd hoe1 this
      rcases List.mem_cons.mp he with he0 | he1
      · rw [he0]; exact hd0
      · exact ih st1 st' h htx hoe e he1

/-- Claim C8: on a batch validation failure, an entry whose single message
matches the duplicate pattern is classified as a duplicate; a payload
consisting only of such entries produces zero fatal errors and advances
the imported counter, and this characterizes exactly the payloads whose
classification leaves both non-duplicate error collections empty — any
other per-leg field error or top-level error makes the handler raise. -/
theorem c8_duplicates_are_success (errors : List (String × List String)) (imported : Nat) :
    ((∀ e ∈ errors, isDupEntry e = true) → handle422 errors imported = .ok (imported + 1)) ∧
    (∀ st, firefly_create_transaction_errors errors = .ok st →
      ((st.other_tx_errors = [] ∧ st.other_errors = []) ↔ ∀ e ∈ errors, isDupEntry e = true)) ∧
    ((¬ ∀ e ∈ errors, isDupEntry e = true) →
      ∃ msg, handle422 errors imported = .error msg) := by
  refine ⟨?_, ?_, ?_⟩
  · intro hdup
    obtain ⟨st', hrun, htx', hoe'⟩ := classifyErrors_all_dup errors {} hdup rfl
    unfold handle422 firefly_create_transaction_errors
    rw [hrun]
    dsimp only
    rw [htx', hoe']
    simp
  · intro st h
    constructor
    · intro ⟨htx, hoe⟩
      exact classifyErrors_empty_imp_dup errors {} st h htx hoe
    · intro hdup
      obtain ⟨st', hrun, htx', hoe'⟩ := classifyErrors_all_dup errors {} hdup rfl
      have : st = st' := by
        have := h.symm.trans hrun
        exact Except.ok.inj this
      subst this
      exact ⟨htx', hoe'⟩
  · intro hnd
    unfold handle422
    rcases hrun : firefly_create_transaction_errors errors with e1 | st
    · exact ⟨e1, rfl⟩
    · dsimp only
      have hne : ¬(st.other_tx_errors = [] ∧ st.other_errors = []) := by
        intro hh
        exact hnd (classifyErrors_empty_imp_dup errors {} st hrun hh.1 hh.2)
      by_cases htx : st.other_tx_errors = []
      · have hoe : st.other_errors ≠ [] := fun hh => hne ⟨htx, hh⟩
        refine ⟨"raise: raw error payload", ?_⟩
        rw [if_pos]
        rw [Bool.or_eq_true]
        right
        simpa [List.isEmpty_iff] using hoe
      · refine ⟨"raise: raw error payload", ?_⟩
        rw [if_pos]
        rw [Bool.or_eq_true]
        left
        simpa [List.isEmpty_iff] using htx

/-- Witness for C8: a payload consisting of the sample duplicate error is
treated as success and advances the imported counter. -/
theorem c8_duplicates_are_success_witness :
    handle422 [("transactions.0.description", ["Duplicate of transaction #7995."])] 3 =
      .ok 4 :=
  (c8_duplicates_are_success
    [("transactions.0.description", ["Duplicate of transaction #7995."])] 3).1 (by decide)

/-- The submission loop, entered with at most 200 groups already imported,
imports at most 201 groups in total, and reaches 201 exactly when it stops
with the `imported > 200` ValueError. -/
theorem createTxLoop_cap : ∀ (gs : List TxGroup) (m0 : Date) (fmin fmax : Option Date)
    (submit : Nat → SubmitOutcome) (bok : Date → Bool) (i : Nat) (current : Date)
    (imported ignored : Nat) (verified : List Date), imported ≤ 200 →
    (createTxLoop m0 fmin fmax submit bok gs i current imported ignored verified).imported ≤ 201 ∧
    ((createTxLoop m0 fmin fmax submit bok gs i current imported ignored verified).imported = 201 ↔
      (createTxLoop m0 fmin fmax submit bok gs i current imported ignored verified).err =
        some RunErr.importLimit) := by
  intro gs
  induction gs with
  | nil =>
    intro m0 fmin fmax submit bok i current imported ignored verified h
    refine ⟨?_, ?_⟩ <;> simp [createTxLoop] <;> omega
  | cons g rest ih =>
    intro m0 fmin fmax submit bok i current imported ignored verified h
    simp only [createTxLoop]
    split
    · split
      · refine ⟨?_, ?_⟩ <;> simp <;> omega
      · refine ⟨?_, ?_⟩ <;> simp <;> omega
    · split
      · refine ⟨?_, ?_⟩ <;> simp <;> omega
      · split
        · exact ih m0 fmin fmax submit bok (i + 1) current imported (ignored + 1) verified h
        · split
          · refine ⟨?_, ?_⟩ <;> simp <;> omega
          · split
            · refine ⟨?_, ?_⟩ <;> simp <;> omega
            · split
              · refine ⟨?_, ?_⟩ <;> simp <;> omega
              · split
                · refine ⟨?_, ?_⟩ <;> simp <;> omega
                · exact ih m0 fmin fmax submit bok (i + 1) current (imported + 1) ignored
                    verified (by omega)
          · split
            · refine ⟨?_, ?_⟩ <;> simp <;> omega
            · exact ih m0 fmin fmax submit bok (i + 1) current (imported + 1) ignored verified
                (by omega)

/-- Claim C10: a run of the transaction submission phase imports at most
201 transaction groups — the counter reaches 201 exactly when the loop
raises the `imported > 200` ValueError and stops submitting — regardless
of the groups, filters, submission outcomes (including a remote that
accepts every batch), and balance oracle. -/
theorem c10_import_cap (groups : List TxGroup) (fmin fmax : Option Date)
    (submit : Nat → SubmitOutcome) (balance_ok : Date → Bool) :
    (create_transactions groups fmin fmax submit balance_ok).imported ≤ 201 ∧
    ((create_transactions groups fmin fmax submit balance_ok).imported = 201 ↔
      (create_transactions groups fmin fmax submit balance_ok).err =
        some RunErr.importLimit) := by
  unfold create_transactions
  rcases groups with _ | ⟨g0, rest⟩
  · refine ⟨?_, ?_⟩ <;> simp
  · rw [List.head?_cons]
    dsimp only
    rcases h0 : g0.transactions.head? with _ | t0 <;> dsimp only
    · refine ⟨?_, ?_⟩ <;> simp
    · exact createTxLoop_cap (g0 :: rest) (monthOf t0.date) fmin fmax submit balance_ok 0
        (monthOf t0.date) 0 0 [] (by omega)

/-- Witness for C10 at a concrete one-group run with a fully accepting
remote. -/
theorem c10_import_cap_witness :
    (create_transactions [⟨[⟨⟨2021, 3, 1⟩⟩]⟩] none none (fun _ => .success)
        (fun _ => true)).imported ≤ 201 :=
  (c10_import_cap [⟨[⟨⟨2021, 3, 1⟩⟩]⟩] none none (fun _ => .success) (fun _ => true)).1

end YnabFirefly
